import Mathlib

/-!
Shallow embedding of the L3 package projector and the L2 type-to-value
decoder of the go-rpmdb repository (pkg/tag_type_string.go and the
package-listing glue): `entryValue`, `getNEVRA`, `getPackageWithTags`.

Go byte slices are modelled as `List Nat` (each byte taken mod 256 where it
is read as a machine integer), Go strings as their byte lists, Go's
`interface{}` value as the inductive `Value`, and the three-way outcome of
a Go call (normal return, error return, runtime panic) as `GoResult`.
-/

namespace RpmDb

/-- `TAG_ID` is Go `int32`; modelled as `Int` (values in the source fit). -/
abbrev TAG_ID := Int

/-- `TAG_TYPE` is Go `uint32`; modelled as `Nat`. -/
abbrev TAG_TYPE := Nat

/-- The `entryInfo` struct: `{Tag, Type, Offset, Count}`. -/
structure entryInfo where
  tag : TAG_ID
  type : TAG_TYPE
  offset : Int
  count : Nat
deriving DecidableEq

/-- The `indexEntry` struct: `{Info, Data}`. -/
structure indexEntry where
  info : entryInfo
  data : List Nat
deriving DecidableEq

/-- Errors returned by the modelled functions: `xerrors.New` messages,
binary read failures, and the package-level `ErrNotSupport`. -/
inductive GoErr where
  | invalid (msg : String)
  | readFail (msg : String)
  | notSupport
deriving DecidableEq

/-- Outcome of a Go call: a value, an error return, or a runtime panic. -/
inductive GoResult (α : Type) where
  | ok (a : α)
  | err (e : GoErr)
  | panicked
deriving DecidableEq

/-- `true` on `ok`. -/
def GoResult.isOk {α : Type} : GoResult α → Bool
  | .ok _ => true
  | _ => false

/-- `true` on `err`. -/
def GoResult.isErr {α : Type} : GoResult α → Bool
  | .err _ => true
  | _ => false

/-- `true` unless the call panicked, i.e. the function returned. -/
def GoResult.completed {α : Type} : GoResult α → Bool
  | .panicked => false
  | _ => true

/-- Map over the `ok` value of a result. -/
def GoResult.map {α β : Type} (f : α → β) : GoResult α → GoResult β
  | .ok a => .ok (f a)
  | .err e => .err e
  | .panicked => .panicked

/-- The dynamically typed value `entryValue` yields through `interface{}`:
a byte, an unsigned 16/32/64-bit integer, a string (byte list), or a
string slice. -/
inductive Value where
  | byteV (b : Nat)
  | u16 (n : Nat)
  | u32 (n : Nat)
  | u64 (n : Nat)
  | str (s : List Nat)
  | strArr (ss : List (List Nat))
deriving DecidableEq

/-- `bytes.TrimRight(data, "\x00")`: drop trailing NUL bytes. -/
def trimNulRight (l : List Nat) : List Nat :=
  (l.reverse.dropWhile (fun b => b == 0)).reverse

/-- The bytes of the literal Go string `"(none)"`. -/
def noneBytes : List Nat := [40, 110, 111, 110, 101, 41]

/-- The `(none)` sentinel normalization applied by the projector to the
SourceRpm, License and Vendor fields:
`if s == "(none)" { s = "" }`. -/
def normNone (s : List Nat) : List Nat :=
  if s = noneBytes then [] else s

/-- Big-endian combination of a byte list into a `Nat`
(`binary.Read(..., binary.BigEndian, ...)` on the given bytes). -/
def beBytes (l : List Nat) : Nat :=
  l.foldl (fun acc b => acc * 256 + b % 256) 0

/-- Reinterpret a `uint32` bit pattern as Go `int32` (two's complement). -/
def toInt32 (n : Nat) : Int :=
  if n % 2 ^ 32 < 2 ^ 31 then ((n % 2 ^ 32 : Nat) : Int)
  else ((n % 2 ^ 32 : Nat) : Int) - 2 ^ 32

/-- One lowercase hex digit character code (`encoding/hex` alphabet). -/
def hexDigit (d : Nat) : Nat := if d < 10 then 48 + d else 87 + d

/-- `hex.EncodeToString`: lowercase hex character codes of a byte list. -/
def hexEncode (l : List Nat) : List Nat :=
  l.foldr (fun b acc => hexDigit (b % 256 / 16) :: hexDigit (b % 256 % 16) :: acc) []

/-- Split a byte list at the first NUL: `some (before, after)` when a NUL
occurs, `none` otherwise. -/
def splitFirst : List Nat → Option (List Nat × List Nat)
  | [] => none
  | b :: rest =>
    if b = 0 then some ([], rest)
    else
      match splitFirst rest with
      | none => none
      | some (pre, post) => some (b :: pre, post)

/-- `bytes.SplitN(data, "\x00", n)`: at most `n` chunks; the last chunk is
the unsplit remainder; `n = 0` yields the empty list. -/
def splitN : List Nat → Nat → List (List Nat)
  | _, 0 => []
  | data, 1 => [data]
  | data, (n + 2) =>
    match splitFirst data with
    | none => [data]
    | some (pre, post) => pre :: splitN post (n + 1)

/-- The STRING_ARRAY / I18NSTRING loop of `entryValue`:
`values := make([]string, count)` then copy `SplitN(data, "\x00", count)`
elementwise while both indices are in range. -/
def saValues (count : Nat) (data : List Nat) : List (List Nat) :=
  (List.range count).map (fun i => (splitN data count).getD i [])

/-- `entryValue(entry)`: the L2 type-to-value decoder. Mirrors the Go
switch on `entry.Info.Type` including the double one-byte `binary.Read`
in the CHAR/INT8 case, the fall-through to `ErrNotSupport` for NULL,
region-tagged BIN and unknown types, and the `entry.Data[:count]` slice
(which panics when `count` exceeds the slice length). -/
def entryValue (e : indexEntry) : GoResult Value :=
  if e.info.type = 0 then
    .err .notSupport
  else if e.info.type = 1 ∨ e.info.type = 2 then
    if e.data.length < 2 then .err (.readFail "failed to read binary byte")
    else .ok (.byteV (e.data.getD 1 0 % 256))
  else if e.info.type = 3 then
    if e.data.length < 2 then .err (.readFail "failed to read binary byte")
    else .ok (.u16 (beBytes (e.data.take 2)))
  else if e.info.type = 4 then
    if e.data.length < 4 then .err (.readFail "failed to read binary byte")
    else .ok (.u32 (beBytes (e.data.take 4)))
  else if e.info.type = 5 then
    if e.data.length < 8 then .err (.readFail "failed to read binary byte")
    else .ok (.u64 (beBytes (e.data.take 8)))
  else if e.info.type = 6 then
    .ok (.str (trimNulRight e.data))
  else if e.info.type = 7 then
    if 61 ≤ e.info.tag ∧ e.info.tag < 64 then .err .notSupport
    else if e.info.count ≤ e.data.length then
      .ok (.str (hexEncode (e.data.take e.info.count)))
    else .panicked
  else if e.info.type = 8 then
    .ok (.strArr (saValues e.info.count e.data))
  else if e.info.type = 9 then
    .ok (.strArr (saValues e.info.count e.data))
  else
    .err .notSupport

/-- The `PackageInfo` struct with Go zero values as defaults. -/
structure PackageInfo where
  epoch : Int := 0
  name : List Nat := []
  version : List Nat := []
  release : List Nat := []
  arch : List Nat := []
  sourceRpm : List Nat := []
  size : Int := 0
  license : List Nat := []
  vendor : List Nat := []
deriving DecidableEq

/-- `pkgInfo.Name = ...`: assignment to the `name` field. -/
def setName (p : PackageInfo) (v : List Nat) : PackageInfo := { p with name := v }

/-- `pkgInfo.Epoch = ...`: assignment to the `epoch` field. -/
def setEpoch (p : PackageInfo) (v : Int) : PackageInfo := { p with epoch := v }

/-- `pkgInfo.Version = ...`: assignment to the `version` field. -/
def setVersion (p : PackageInfo) (v : List Nat) : PackageInfo := { p with version := v }

/-- `pkgInfo.Release = ...`: assignment to the `release` field. -/
def setRelease (p : PackageInfo) (v : List Nat) : PackageInfo := { p with release := v }

/-- `pkgInfo.Arch = ...`: assignment to the `arch` field. -/
def setArch (p : PackageInfo) (v : List Nat) : PackageInfo := { p with arch := v }

/-- `pkgInfo.SourceRpm = ...`: assignment to the `sourceRpm` field. -/
def setSourceRpm (p : PackageInfo) (v : List Nat) : PackageInfo := { p with sourceRpm := v }

/-- `pkgInfo.License = ...`: assignment to the `license` field. -/
def setLicense (p : PackageInfo) (v : List Nat) : PackageInfo := { p with license := v }

/-- `pkgInfo.Vendor = ...`: assignment to the `vendor` field. -/
def setVendor (p : PackageInfo) (v : List Nat) : PackageInfo := { p with vendor := v }

/-- `pkgInfo.Size = ...`: assignment to the `size` field. -/
def setSize (p : PackageInfo) (v : Int) : PackageInfo := { p with size := v }

/-- The `RPMTAG_NAME` case of the projection switch. -/
def nameCase (p : PackageInfo) (e : indexEntry) : GoResult PackageInfo :=
  if e.info.type ≠ 6 then .err (.invalid "invalid tag name")
  else .ok (setName p (trimNulRight e.data))

/-- The `RPMTAG_EPOCH` case of the projection switch: requires INT32 and
reads a big-endian signed 32-bit value from the entry data. -/
def epochCase (p : PackageInfo) (e : indexEntry) : GoResult PackageInfo :=
  if e.info.type ≠ 4 then .err (.invalid "invalid tag epoch")
  else if e.data.length < 4 then .err (.readFail "failed to read binary (epoch)")
  else .ok (setEpoch p (toInt32 (beBytes (e.data.take 4))))

/-- The `RPMTAG_VERSION` case of the projection switch. -/
def versionCase (p : PackageInfo) (e : indexEntry) : GoResult PackageInfo :=
  if e.info.type ≠ 6 then .err (.invalid "invalid tag version")
  else .ok (setVersion p (trimNulRight e.data))

/-- The `RPMTAG_RELEASE` case of the projection switch. -/
def releaseCase (p : PackageInfo) (e : indexEntry) : GoResult PackageInfo :=
  if e.info.type ≠ 6 then .err (.invalid "invalid tag release")
  else .ok (setRelease p (trimNulRight e.data))

/-- The `RPMTAG_ARCH` case of the projection switch. -/
def archCase (p : PackageInfo) (e : indexEntry) : GoResult PackageInfo :=
  if e.info.type ≠ 6 then .err (.invalid "invalid tag arch")
  else .ok (setArch p (trimNulRight e.data))

/-- The `RPMTAG_SOURCERPM` case of the projection switch, with the
`(none)` normalization. -/
def sourceRpmCase (p : PackageInfo) (e : indexEntry) : GoResult PackageInfo :=
  if e.info.type ≠ 6 then .err (.invalid "invalid tag sourcerpm")
  else .ok (setSourceRpm p (normNone (trimNulRight e.data)))

/-- The `RPMTAG_LICENSE` case of the projection switch, with the
`(none)` normalization. -/
def licenseCase (p : PackageInfo) (e : indexEntry) : GoResult PackageInfo :=
  if e.info.type ≠ 6 then .err (.invalid "invalid tag license")
  else .ok (setLicense p (normNone (trimNulRight e.data)))

/-- The `RPMTAG_VENDOR` case of the projection switch, with the
`(none)` normalization. -/
def vendorCase (p : PackageInfo) (e : indexEntry) : GoResult PackageInfo :=
  if e.info.type ≠ 6 then .err (.invalid "invalid tag vendor")
  else .ok (setVendor p (normNone (trimNulRight e.data)))

/-- The `RPMTAG_SIZE` case of the projection switch: requires INT32 and
reads a big-endian signed 32-bit value from the entry data. -/
def sizeCase (p : PackageInfo) (e : indexEntry) : GoResult PackageInfo :=
  if e.info.type ≠ 4 then .err (.invalid "invalid tag size")
  else if e.data.length < 4 then .err (.readFail "failed to read binary (size)")
  else .ok (setSize p (toInt32 (beBytes (e.data.take 4))))

/-- One iteration of the `getNEVRA` loop body: the switch on
`indexEntry.Info.Tag` over the nine recognized tags, updating the package
record or returning an error on a declared-type mismatch; every other tag
falls through the switch and leaves the record unchanged. -/
def nevraStep (p : PackageInfo) (e : indexEntry) : GoResult PackageInfo :=
  if e.info.tag = 1000 then nameCase p e
  else if e.info.tag = 1003 then epochCase p e
  else if e.info.tag = 1001 then versionCase p e
  else if e.info.tag = 1002 then releaseCase p e
  else if e.info.tag = 1022 then archCase p e
  else if e.info.tag = 1044 then sourceRpmCase p e
  else if e.info.tag = 1014 then licenseCase p e
  else if e.info.tag = 1011 then vendorCase p e
  else if e.info.tag = 1009 then sizeCase p e
  else .ok p

/-- The `getNEVRA` loop over the entry list, threading the package record
and short-circuiting on error or panic. -/
def nevraRun (p : PackageInfo) : List indexEntry → GoResult PackageInfo
  | [] => .ok p
  | e :: rest =>
    match nevraStep p e with
    | .ok q => nevraRun q rest
    | .err g => .err g
    | .panicked => .panicked

/-- `getNEVRA(indexEntries)`: basic NEVRA projection. -/
def getNEVRA (entries : List indexEntry) : GoResult PackageInfo :=
  nevraRun {} entries

/-- The `PackageInfoEx` struct: embedded `PackageInfo` plus the
`TagsMap map[TAG_ID]interface{}`, modelled as an association list. -/
structure PackageInfoEx where
  pkgInfo : PackageInfo := {}
  tagsMap : List (TAG_ID × Value) := []
deriving DecidableEq

/-- Go map assignment `m[k] = v`: replace the binding when the key is
present, otherwise append it. -/
def mapInsert (m : List (TAG_ID × Value)) (k : TAG_ID) (v : Value) :
    List (TAG_ID × Value) :=
  if m.any (fun kv => kv.1 == k) then
    m.map (fun kv => if kv.1 == k then (k, v) else kv)
  else m ++ [(k, v)]

/-- Replacement of the embedded `PackageInfo` of a `PackageInfoEx`. -/
def withPkg (px : PackageInfoEx) (q : PackageInfo) : PackageInfoEx :=
  { px with pkgInfo := q }

/-- `pkgInfo.TagsMap[tag] = v`: map assignment on the `tagsMap` field. -/
def withTag (px : PackageInfoEx) (k : TAG_ID) (v : Value) : PackageInfoEx :=
  { px with tagsMap := mapInsert px.tagsMap k v }

/-- The `RPMTAG_NAME` case as duplicated in `getPackageWithTags`. -/
def pwtNameCase (px : PackageInfoEx) (e : indexEntry) : GoResult PackageInfoEx :=
  if e.info.type ≠ 6 then .err (.invalid "invalid tag name")
  else .ok (withPkg px (setName px.pkgInfo (trimNulRight e.data)))

/-- The `RPMTAG_EPOCH` case as duplicated in `getPackageWithTags`. -/
def pwtEpochCase (px : PackageInfoEx) (e : indexEntry) : GoResult PackageInfoEx :=
  if e.info.type ≠ 4 then .err (.invalid "invalid tag epoch")
  else if e.data.length < 4 then .err (.readFail "failed to read binary (epoch)")
  else .ok (withPkg px (setEpoch px.pkgInfo (toInt32 (beBytes (e.data.take 4)))))

/-- The `RPMTAG_VERSION` case as duplicated in `getPackageWithTags`. -/
def pwtVersionCase (px : PackageInfoEx) (e : indexEntry) : GoResult PackageInfoEx :=
  if e.info.type ≠ 6 then .err (.invalid "invalid tag version")
  else .ok (withPkg px (setVersion px.pkgInfo (trimNulRight e.data)))

/-- The `RPMTAG_RELEASE` case as duplicated in `getPackageWithTags`. -/
def pwtReleaseCase (px : PackageInfoEx) (e : indexEntry) : GoResult PackageInfoEx :=
  if e.info.type ≠ 6 then .err (.invalid "invalid tag release")
  else .ok (withPkg px (setRelease px.pkgInfo (trimNulRight e.data)))

/-- The `RPMTAG_ARCH` case as duplicated in `getPackageWithTags`. -/
def pwtArchCase (px : PackageInfoEx) (e : indexEntry) : GoResult PackageInfoEx :=
  if e.info.type ≠ 6 then .err (.invalid "invalid tag arch")
  else .ok (withPkg px (setArch px.pkgInfo (trimNulRight e.data)))

/-- The `RPMTAG_SOURCERPM` case as duplicated in `getPackageWithTags`. -/
def pwtSourceRpmCase (px : PackageInfoEx) (e : indexEntry) : GoResult PackageInfoEx :=
  if e.info.type ≠ 6 then .err (.invalid "invalid tag sourcerpm")
  else .ok (withPkg px (setSourceRpm px.pkgInfo (normNone (trimNulRight e.data))))

/-- The `RPMTAG_LICENSE` case as duplicated in `getPackageWithTags`. -/
def pwtLicenseCase (px : PackageInfoEx) (e : indexEntry) : GoResult PackageInfoEx :=
  if e.info.type ≠ 6 then .err (.invalid "invalid tag license")
  else .ok (withPkg px (setLicense px.pkgInfo (normNone (trimNulRight e.data))))

/-- The `RPMTAG_VENDOR` case as duplicated in `getPackageWithTags`. -/
def pwtVendorCase (px : PackageInfoEx) (e : indexEntry) : GoResult PackageInfoEx :=
  if e.info.type ≠ 6 then .err (.invalid "invalid tag vendor")
  else .ok (withPkg px (setVendor px.pkgInfo (normNone (trimNulRight e.data))))

/-- The `RPMTAG_SIZE` case as duplicated in `getPackageWithTags`. -/
def pwtSizeCase (px : PackageInfoEx) (e : indexEntry) : GoResult PackageInfoEx :=
  if e.info.type ≠ 4 then .err (.invalid "invalid tag size")
  else if e.data.length < 4 then .err (.readFail "failed to read binary (size)")
  else .ok (withPkg px (setSize px.pkgInfo (toInt32 (beBytes (e.data.take 4)))))

/-- The `default` case of `getPackageWithTags`: a requested tag is decoded
via `entryValue` and inserted into the tags map, with decoding errors
silently dropped; an unrequested tag is skipped. -/
def pwtDefaultCase (tagMask : TAG_ID → Bool) (px : PackageInfoEx)
    (e : indexEntry) : GoResult PackageInfoEx :=
  if tagMask e.info.tag then
    match entryValue e with
    | .ok v => .ok (withTag px e.info.tag v)
    | .err _ => .ok px
    | .panicked => .panicked
  else
    .ok px

/-- One iteration of the `getPackageWithTags` loop body: the same nine
tag cases duplicated in the source, plus the `default` branch. -/
def pwtStep (tagMask : TAG_ID → Bool) (px : PackageInfoEx) (e : indexEntry) :
    GoResult PackageInfoEx :=
  if e.info.tag = 1000 then pwtNameCase px e
  else if e.info.tag = 1003 then pwtEpochCase px e
  else if e.info.tag = 1001 then pwtVersionCase px e
  else if e.info.tag = 1002 then pwtReleaseCase px e
  else if e.info.tag = 1022 then pwtArchCase px e
  else if e.info.tag = 1044 then pwtSourceRpmCase px e
  else if e.info.tag = 1014 then pwtLicenseCase px e
  else if e.info.tag = 1011 then pwtVendorCase px e
  else if e.info.tag = 1009 then pwtSizeCase px e
  else pwtDefaultCase tagMask px e

/-- The `getPackageWithTags` loop over the entry list. -/
def pwtRun (tagMask : TAG_ID → Bool) (px : PackageInfoEx) :
    List indexEntry → GoResult PackageInfoEx
  | [] => .ok px
  | e :: rest =>
    match pwtStep tagMask px e with
    | .ok q => pwtRun tagMask q rest
    | .err g => .err g
    | .panicked => .panicked

/-- `getPackageWithTags(indexEntries, tagMask)`: extended projection. -/
def getPackageWithTags (entries : List indexEntry) (tagMask : TAG_ID → Bool) :
    GoResult PackageInfoEx :=
  pwtRun tagMask {} entries

/-- The nine tag IDs the projector recognizes:
NAME, VERSION, RELEASE, EPOCH, SIZE, VENDOR, LICENSE, ARCH, SOURCERPM. -/
def nevraTags : List TAG_ID := [1000, 1001, 1002, 1003, 1009, 1011, 1014, 1022, 1044]

/-- The declared type each recognized NEVRA tag must carry:
INT32 (4) for EPOCH and SIZE, STRING (6) for the rest. -/
def requiredType (t : TAG_ID) : TAG_TYPE :=
  if t = 1003 ∨ t = 1009 then 4 else 6

/-- The precondition claim C10 states at the public interface: every
requested BIN entry with a tag outside `[HEADER_IMAGE, HEADER_REGIONS)`
has `count` bounded by its data length. -/
abbrev BinBound (tagMask : TAG_ID → Bool) (entries : List indexEntry) : Prop :=
  ∀ e ∈ entries, tagMask e.info.tag = true → e.info.type = 7 →
    ¬(61 ≤ e.info.tag ∧ e.info.tag < 64) → e.info.count ≤ e.data.length

/-! ### Basic lemmas about the step functions -/

lemma map_ok {α β : Type} (f : α → β) (a : α) :
    GoResult.map f (.ok a) = .ok (f a) := rfl

lemma map_err {α β : Type} (f : α → β) (g : GoErr) :
    GoResult.map f (.err g : GoResult α) = .err g := rfl

lemma nameCase_ne_panicked (p : PackageInfo) (e : indexEntry) :
    nameCase p e ≠ .panicked := by
  intro h; unfold nameCase at h; split at h <;> exact GoResult.noConfusion h

lemma epochCase_ne_panicked (p : PackageInfo) (e : indexEntry) :
    epochCase p e ≠ .panicked := by
  intro h; unfold epochCase at h
  repeat' split at h
  all_goals exact GoResult.noConfusion h

lemma versionCase_ne_panicked (p : PackageInfo) (e : indexEntry) :
    versionCase p e ≠ .panicked := by
  intro h; unfold versionCase at h; split at h <;> exact GoResult.noConfusion h

lemma releaseCase_ne_panicked (p : PackageInfo) (e : indexEntry) :
    releaseCase p e ≠ .panicked := by
  intro h; unfold releaseCase at h; split at h <;> exact GoResult.noConfusion h

lemma archCase_ne_panicked (p : PackageInfo) (e : indexEntry) :
    archCase p e ≠ .panicked := by
  intro h; unfold archCase at h; split at h <;> exact GoResult.noConfusion h

lemma sourceRpmCase_ne_panicked (p : PackageInfo) (e : indexEntry) :
    sourceRpmCase p e ≠ .panicked := by
  intro h; unfold sourceRpmCase at h; split at h <;> exact GoResult.noConfusion h

lemma licenseCase_ne_panicked (p : PackageInfo) (e : indexEntry) :
    licenseCase p e ≠ .panicked := by
  intro h; unfold licenseCase at h; split at h <;> exact GoResult.noConfusion h

lemma vendorCase_ne_panicked (p : PackageInfo) (e : indexEntry) :
    vendorCase p e ≠ .panicked := by
  intro h; unfold vendorCase at h; split at h <;> exact GoResult.noConfusion h

lemma sizeCase_ne_panicked (p : PackageInfo) (e : indexEntry) :
    sizeCase p e ≠ .panicked := by
  intro h; unfold sizeCase at h
  repeat' split at h
  all_goals exact GoResult.noConfusion h

lemma nevraStep_ne_panicked (p : PackageInfo) (e : indexEntry) :
    nevraStep p e ≠ .panicked := by
  intro h; unfold nevraStep at h
  repeat' split at h
  case _ => exact nameCase_ne_panicked p e h
  case _ => exact epochCase_ne_panicked p e h
  case _ => exact versionCase_ne_panicked p e h
  case _ => exact releaseCase_ne_panicked p e h
  case _ => exact archCase_ne_panicked p e h
  case _ => exact sourceRpmCase_ne_panicked p e h
  case _ => exact licenseCase_ne_panicked p e h
  case _ => exact vendorCase_ne_panicked p e h
  case _ => exact sizeCase_ne_panicked p e h
  case _ => exact GoResult.noConfusion h

lemma entryValue_panicked_iff (e : indexEntry) :
    entryValue e = .panicked ↔
      e.info.type = 7 ∧ ¬(61 ≤ e.info.tag ∧ e.info.tag < 64) ∧
        e.data.length < e.info.count := by
  obtain ⟨⟨tag, ty, off, cnt⟩, data⟩ := e
  constructor
  · intro h
    simp only [entryValue] at h
    repeat' split at h <;> try exact GoResult.noConfusion h
    all_goals simp_all
  · rintro ⟨h7, hreg, hlen⟩
    simp only at h7
    subst h7
    simp only [entryValue]
    norm_num
    simp only at hreg hlen
    rw [if_neg hreg, if_neg (by omega : ¬ cnt ≤ data.length)]


lemma pwtNameCase_ne_panicked (px : PackageInfoEx) (e : indexEntry) :
    pwtNameCase px e ≠ .panicked := by
  intro h; unfold pwtNameCase at h; split at h <;> exact GoResult.noConfusion h

lemma pwtEpochCase_ne_panicked (px : PackageInfoEx) (e : indexEntry) :
    pwtEpochCase px e ≠ .panicked := by
  intro h; unfold pwtEpochCase at h
  repeat' split at h
  all_goals exact GoResult.noConfusion h

lemma pwtVersionCase_ne_panicked (px : PackageInfoEx) (e : indexEntry) :
    pwtVersionCase px e ≠ .panicked := by
  intro h; unfold pwtVersionCase at h; split at h <;> exact GoResult.noConfusion h

lemma pwtReleaseCase_ne_panicked (px : PackageInfoEx) (e : indexEntry) :
    pwtReleaseCase px e ≠ .panicked := by
  intro h; unfold pwtReleaseCase at h; split at h <;> exact GoResult.noConfusion h

lemma pwtArchCase_ne_panicked (px : PackageInfoEx) (e : indexEntry) :
    pwtArchCase px e ≠ .panicked := by
  intro h; unfold pwtArchCase at h; split at h <;> exact GoResult.noConfusion h

lemma pwtSourceRpmCase_ne_panicked (px : PackageInfoEx) (e : indexEntry) :
    pwtSourceRpmCase px e ≠ .panicked := by
  intro h; unfold pwtSourceRpmCase at h; split at h <;> exact GoResult.noConfusion h

lemma pwtLicenseCase_ne_panicked (px : PackageInfoEx) (e : indexEntry) :
    pwtLicenseCase px e ≠ .panicked := by
  intro h; unfold pwtLicenseCase at h; split at h <;> exact GoResult.noConfusion h

lemma pwtVendorCase_ne_panicked (px : PackageInfoEx) (e : indexEntry) :
    pwtVendorCase px e ≠ .panicked := by
  intro h; unfold pwtVendorCase at h; split at h <;> exact GoResult.noConfusion h

lemma pwtSizeCase_ne_panicked (px : PackageInfoEx) (e : indexEntry) :
    pwtSizeCase px e ≠ .panicked := by
  intro h; unfold pwtSizeCase at h
  repeat' split at h
  all_goals exact GoResult.noConfusion h

lemma pwtDefaultCase_panicked {tagMask : TAG_ID → Bool} {px : PackageInfoEx}
    {e : indexEntry} (h : pwtDefaultCase tagMask px e = .panicked) :
    tagMask e.info.tag = true ∧ entryValue e = .panicked := by
  unfold pwtDefaultCase at h
  by_cases hm : tagMask e.info.tag
  · rw [if_pos hm] at h
    refine ⟨hm, ?_⟩
    cases hv : entryValue e
    · rw [hv] at h; exact GoResult.noConfusion h
    · rw [hv] at h; exact GoResult.noConfusion h
    · rfl
  · rw [if_neg hm] at h
    exact GoResult.noConfusion h

lemma pwtStep_panicked {tagMask : TAG_ID → Bool} {px : PackageInfoEx}
    {e : indexEntry} (h : pwtStep tagMask px e = .panicked) :
    tagMask e.info.tag = true ∧ entryValue e = .panicked := by
  unfold pwtStep at h
  repeat' split at h
  case _ => exact (pwtNameCase_ne_panicked px e h).elim
  case _ => exact (pwtEpochCase_ne_panicked px e h).elim
  case _ => exact (pwtVersionCase_ne_panicked px e h).elim
  case _ => exact (pwtReleaseCase_ne_panicked px e h).elim
  case _ => exact (pwtArchCase_ne_panicked px e h).elim
  case _ => exact (pwtSourceRpmCase_ne_panicked px e h).elim
  case _ => exact (pwtLicenseCase_ne_panicked px e h).elim
  case _ => exact (pwtVendorCase_ne_panicked px e h).elim
  case _ => exact (pwtSizeCase_ne_panicked px e h).elim
  case _ => exact pwtDefaultCase_panicked h

/-! ### Pointwise agreement of the duplicated switch cases -/

lemma pwtNameCase_map (px : PackageInfoEx) (e : indexEntry) :
    GoResult.map (fun x => x.pkgInfo) (pwtNameCase px e) = nameCase px.pkgInfo e := by
  unfold pwtNameCase nameCase; split_ifs <;> rfl

lemma pwtEpochCase_map (px : PackageInfoEx) (e : indexEntry) :
    GoResult.map (fun x => x.pkgInfo) (pwtEpochCase px e) = epochCase px.pkgInfo e := by
  unfold pwtEpochCase epochCase; split_ifs <;> rfl

lemma pwtVersionCase_map (px : PackageInfoEx) (e : indexEntry) :
    GoResult.map (fun x => x.pkgInfo) (pwtVersionCase px e) = versionCase px.pkgInfo e := by
  unfold pwtVersionCase versionCase; split_ifs <;> rfl

lemma pwtReleaseCase_map (px : PackageInfoEx) (e : indexEntry) :
    GoResult.map (fun x => x.pkgInfo) (pwtReleaseCase px e) = releaseCase px.pkgInfo e := by
  unfold pwtReleaseCase releaseCase; split_ifs <;> rfl

lemma pwtArchCase_map (px : PackageInfoEx) (e : indexEntry) :
    GoResult.map (fun x => x.pkgInfo) (pwtArchCase px e) = archCase px.pkgInfo e := by
  unfold pwtArchCase archCase; split_ifs <;> rfl

lemma pwtSourceRpmCase_map (px : PackageInfoEx) (e : indexEntry) :
    GoResult.map (fun x => x.pkgInfo) (pwtSourceRpmCase px e) = sourceRpmCase px.pkgInfo e := by
  unfold pwtSourceRpmCase sourceRpmCase; split_ifs <;> rfl

lemma pwtLicenseCase_map (px : PackageInfoEx) (e : indexEntry) :
    GoResult.map (fun x => x.pkgInfo) (pwtLicenseCase px e) = licenseCase px.pkgInfo e := by
  unfold pwtLicenseCase licenseCase; split_ifs <;> rfl

lemma pwtVendorCase_map (px : PackageInfoEx) (e : indexEntry) :
    GoResult.map (fun x => x.pkgInfo) (pwtVendorCase px e) = vendorCase px.pkgInfo e := by
  unfold pwtVendorCase vendorCase; split_ifs <;> rfl

lemma pwtSizeCase_map (px : PackageInfoEx) (e : indexEntry) :
    GoResult.map (fun x => x.pkgInfo) (pwtSizeCase px e) = sizeCase px.pkgInfo e := by
  unfold pwtSizeCase sizeCase; split_ifs <;> rfl

lemma pwtDefaultCase_map {tagMask : TAG_ID → Bool} (px : PackageInfoEx)
    (e : indexEntry) (h : tagMask e.info.tag = true → entryValue e ≠ .panicked) :
    GoResult.map (fun x => x.pkgInfo) (pwtDefaultCase tagMask px e) = .ok px.pkgInfo := by
  unfold pwtDefaultCase
  split
  · rename_i hm
    rcases hv : entryValue e with v | g | _
    · rfl
    · rfl
    · exact (h hm hv).elim
  · rfl

lemma pwtStep_map {tagMask : TAG_ID → Bool} (px : PackageInfoEx)
    (e : indexEntry) (h : tagMask e.info.tag = true → entryValue e ≠ .panicked) :
    GoResult.map (fun x => x.pkgInfo) (pwtStep tagMask px e) = nevraStep px.pkgInfo e := by
  unfold pwtStep nevraStep
  repeat' split
  all_goals
    first
    | exact pwtNameCase_map px e
    | exact pwtEpochCase_map px e
    | exact pwtVersionCase_map px e
    | exact pwtReleaseCase_map px e
    | exact pwtArchCase_map px e
    | exact pwtSourceRpmCase_map px e
    | exact pwtLicenseCase_map px e
    | exact pwtVendorCase_map px e
    | exact pwtSizeCase_map px e
    | exact pwtDefaultCase_map px e h

/-! ### Run-level lemmas -/

lemma nevraRun_cons (p : PackageInfo) (e : indexEntry) (rest : List indexEntry) :
    nevraRun p (e :: rest) =
      match nevraStep p e with
      | .ok q => nevraRun q rest
      | .err g => .err g
      | .panicked => .panicked := rfl

lemma pwtRun_cons (tagMask : TAG_ID → Bool) (px : PackageInfoEx)
    (e : indexEntry) (rest : List indexEntry) :
    pwtRun tagMask px (e :: rest) =
      match pwtStep tagMask px e with
      | .ok q => pwtRun tagMask q rest
      | .err g => .err g
      | .panicked => .panicked := rfl

lemma nevraStep_notin {p : PackageInfo} {e : indexEntry}
    (h : e.info.tag ∉ nevraTags) : nevraStep p e = .ok p := by
  simp only [nevraTags, List.mem_cons, List.not_mem_nil, or_false, not_or] at h
  obtain ⟨h1000, h1001, h1002, h1003, h1009, h1011, h1014, h1022, h1044⟩ := h
  unfold nevraStep
  rw [if_neg h1000, if_neg h1003, if_neg h1001, if_neg h1002, if_neg h1022,
    if_neg h1044, if_neg h1014, if_neg h1011, if_neg h1009]

lemma pwtStep_notin {tagMask : TAG_ID → Bool} {px : PackageInfoEx}
    {e : indexEntry} (h : e.info.tag ∉ nevraTags) :
    pwtStep tagMask px e = pwtDefaultCase tagMask px e := by
  simp only [nevraTags, List.mem_cons, List.not_mem_nil, or_false, not_or] at h
  obtain ⟨h1000, h1001, h1002, h1003, h1009, h1011, h1014, h1022, h1044⟩ := h
  unfold pwtStep
  rw [if_neg h1000, if_neg h1003, if_neg h1001, if_neg h1002, if_neg h1022,
    if_neg h1044, if_neg h1014, if_neg h1011, if_neg h1009]

lemma pwtStep_skip {tagMask : TAG_ID → Bool} {px : PackageInfoEx}
    {e : indexEntry} {g : GoErr} (h : e.info.tag ∉ nevraTags)
    (hm : tagMask e.info.tag = true) (hv : entryValue e = .err g) :
    pwtStep tagMask px e = .ok px := by
  rw [pwtStep_notin h]
  unfold pwtDefaultCase
  rw [if_pos hm, hv]

lemma nevraRun_completed (l : List indexEntry) :
    ∀ p : PackageInfo, (nevraRun p l).completed = true := by
  induction l with
  | nil => intro p; rfl
  | cons e rest ih =>
    intro p
    rw [nevraRun_cons]
    cases hs : nevraStep p e
    · exact ih _
    · rfl
    · exact (nevraStep_ne_panicked p e hs).elim

lemma pwtRun_completed (l : List indexEntry) :
    ∀ (px : PackageInfoEx) (tagMask : TAG_ID → Bool), BinBound tagMask l →
      (pwtRun tagMask px l).completed = true := by
  induction l with
  | nil => intro px tagMask _; rfl
  | cons e rest ih =>
    intro px tagMask hb
    rw [pwtRun_cons]
    cases hs : pwtStep tagMask px e
    · exact ih _ _ (fun x hx hm h7 hr => hb x (List.mem_cons_of_mem _ hx) hm h7 hr)
    · rfl
    · obtain ⟨hm, hp⟩ := pwtStep_panicked hs
      obtain ⟨h7, hreg, hlt⟩ := (entryValue_panicked_iff e).mp hp
      have := hb e (List.mem_cons_self e rest) hm h7 hreg
      omega

lemma pwtRun_map (l : List indexEntry) :
    ∀ (px : PackageInfoEx) (tagMask : TAG_ID → Bool), BinBound tagMask l →
      GoResult.map (fun x => x.pkgInfo) (pwtRun tagMask px l) =
        nevraRun px.pkgInfo l := by
  induction l with
  | nil => intro px tagMask _; rfl
  | cons e rest ih =>
    intro px tagMask hb
    have hnp : tagMask e.info.tag = true → entryValue e ≠ .panicked := by
      intro hm hp
      obtain ⟨h7, hreg, hlt⟩ := (entryValue_panicked_iff e).mp hp
      have := hb e (List.mem_cons_self e rest) hm h7 hreg
      omega
    have hstep := pwtStep_map px e hnp
    rw [pwtRun_cons, nevraRun_cons]
    cases hs : pwtStep tagMask px e
    · rw [hs, map_ok] at hstep
      rw [← hstep]
      exact ih _ tagMask (fun x hx hm h7 hr => hb x (List.mem_cons_of_mem _ hx) hm h7 hr)
    · rw [hs, map_err] at hstep
      rw [← hstep]
      rfl
    · obtain ⟨hm, hp⟩ := pwtStep_panicked hs
      exact (hnp hm hp).elim

lemma nevraRun_ignore {e : indexEntry} (h : e.info.tag ∉ nevraTags)
    (l2 : List indexEntry) :
    ∀ (l1 : List indexEntry) (p : PackageInfo),
      nevraRun p (l1 ++ e :: l2) = nevraRun p (l1 ++ l2) := by
  intro l1
  induction l1 with
  | nil =>
    intro p
    rw [List.nil_append, List.nil_append, nevraRun_cons, nevraStep_notin h]
  | cons a l1 ih =>
    intro p
    rw [List.cons_append, List.cons_append, nevraRun_cons, nevraRun_cons]
    cases hs : nevraStep p a
    · exact ih _
    · rfl
    · rfl

/-! ### NEVRA type-mismatch failure lemmas -/

lemma pwtStep_err_of_bad {tagMask : TAG_ID → Bool} {px : PackageInfoEx}
    {e : indexEntry} (htag : e.info.tag ∈ nevraTags)
    (hty : e.info.type ≠ requiredType e.info.tag) :
    (pwtStep tagMask px e).isErr = true := by
  simp only [nevraTags, List.mem_cons, List.not_mem_nil, or_false] at htag
  unfold pwtStep
  rcases htag with h | h | h | h | h | h | h | h | h
  all_goals rw [h] at hty ⊢
  all_goals simp only [requiredType] at hty
  all_goals norm_num at hty ⊢
  all_goals
    first
    | (unfold pwtNameCase; rw [if_pos hty]; rfl)
    | (unfold pwtEpochCase; rw [if_pos hty]; rfl)
    | (unfold pwtVersionCase; rw [if_pos hty]; rfl)
    | (unfold pwtReleaseCase; rw [if_pos hty]; rfl)
    | (unfold pwtArchCase; rw [if_pos hty]; rfl)
    | (unfold pwtSourceRpmCase; rw [if_pos hty]; rfl)
    | (unfold pwtLicenseCase; rw [if_pos hty]; rfl)
    | (unfold pwtVendorCase; rw [if_pos hty]; rfl)
    | (unfold pwtSizeCase; rw [if_pos hty]; rfl)

lemma pwtRun_not_ok_of_bad (l : List indexEntry) {e : indexEntry}
    (htag : e.info.tag ∈ nevraTags)
    (hty : e.info.type ≠ requiredType e.info.tag) :
    ∀ (px : PackageInfoEx) (tagMask : TAG_ID → Bool), e ∈ l →
      (pwtRun tagMask px l).isOk = false := by
  induction l with
  | nil => intro px tagMask hx; cases hx
  | cons a rest ih =>
    intro px tagMask hx
    rw [pwtRun_cons]
    cases hs : pwtStep tagMask px a
    · rcases List.mem_cons.mp hx with rfl | hmem
      · have hbad := @pwtStep_err_of_bad tagMask px e htag hty
        rw [hs] at hbad
        simp [GoResult.isErr] at hbad
      · exact ih _ _ hmem
    · rfl
    · rfl

/-! ### Lemmas about NUL splitting -/

lemma splitFirst_none {data : List Nat} (h : splitFirst data = none) :
    0 ∉ data := by
  induction data with
  | nil => simp
  | cons b rest ih =>
    unfold splitFirst at h
    by_cases hb : b = 0
    · rw [if_pos hb] at h; exact Option.noConfusion h
    · rw [if_neg hb] at h
      cases hsf : splitFirst rest
      · intro hmem
        rcases List.mem_cons.mp hmem with h0 | h0
        · exact hb h0.symm
        · exact ih hsf h0
      · rw [hsf] at h
        exact Option.noConfusion h

lemma splitFirst_some_pre :
    ∀ {data pre post : List Nat}, splitFirst data = some (pre, post) →
      0 ∉ pre := by
  intro data
  induction data with
  | nil => intro pre post h; exact Option.noConfusion h
  | cons b rest ih =>
    intro pre post h
    unfold splitFirst at h
    by_cases hb : b = 0
    · rw [if_pos hb] at h
      injection h with h
      obtain ⟨h1, h2⟩ := Prod.mk.injEq .. ▸ h
      subst h1
      simp
    · rw [if_neg hb] at h
      cases hsf : splitFirst rest
      · rw [hsf] at h
        exact Option.noConfusion h
      · rename_i val
        obtain ⟨p1, p2⟩ := val
        rw [hsf] at h
        injection h with h
        obtain ⟨h1, h2⟩ := Prod.mk.injEq .. ▸ h
        subst h1
        intro hmem
        rcases List.mem_cons.mp hmem with h0 | h0
        · exact hb h0.symm
        · exact ih hsf h0

lemma splitN_length_le (n : Nat) : ∀ data : List Nat, (splitN data n).length ≤ n := by
  induction n using Nat.twoStepInduction with
  | zero => intro data; simp [splitN]
  | one => intro data; simp [splitN]
  | more n ih1 ih2 =>
    intro data
    unfold splitN
    cases hsf : splitFirst data
    · simp
    · rename_i val
      obtain ⟨pre, post⟩ := val
      simpa using Nat.succ_le_succ (ih2 post)

lemma splitN_take_nul_free (n : Nat) :
    ∀ data : List Nat, ∀ s ∈ (splitN data n).take (n - 1), 0 ∉ s := by
  induction n using Nat.twoStepInduction with
  | zero => intro data s hs; simp [splitN] at hs
  | one => intro data s hs; simp [splitN] at hs
  | more n ih1 ih2 =>
    intro data s hs
    unfold splitN at hs
    cases hsf : splitFirst data
    · rw [hsf] at hs
      simp at hs
      subst hs
      exact splitFirst_none hsf
    · rename_i val
      obtain ⟨pre, post⟩ := val
      rw [hsf] at hs
      have : n + 2 - 1 = (n + 1 - 1) + 1 := by omega
      rw [this, List.take_succ_cons] at hs
      rcases List.mem_cons.mp hs with rfl | hmem
      · exact splitFirst_some_pre hsf
      · exact ih2 post s hmem

lemma saValues_eq_append (n : Nat) (data : List Nat) :
    saValues n data =
      splitN data n ++ List.replicate (n - (splitN data n).length) [] := by
  have hle := splitN_length_le n data
  unfold saValues
  generalize splitN data n = l at hle ⊢
  induction l generalizing n with
  | nil =>
    simp only [List.nil_append, Nat.sub_zero, List.length_nil]
    have : (fun i => ([] : List (List Nat)).getD i []) = fun _ : Nat => ([] : List Nat) := by
      funext i; simp [List.getD]
    rw [this, List.map_const', List.length_range]
  | cons a l ih =>
    cases n with
    | zero => simp at hle
    | succ m =>
      rw [List.range_succ_eq_map]
      simp only [List.map_cons, List.map_map]
      have h1 : ((a :: l).getD 0 []) = a := rfl
      rw [h1]
      have h2 : (fun i => (a :: l).getD i []) ∘ Nat.succ = fun i => l.getD i [] := by
        funext i; rfl
      rw [h2]
      have hle2 : l.length ≤ m := by simpa using hle
      rw [ih m hle2]
      simp [List.length_cons, Nat.succ_sub_succ]

lemma saValues_length (n : Nat) (data : List Nat) :
    (saValues n data).length = n := by
  unfold saValues
  simp

lemma saValues_take_nul_free (n : Nat) (data : List Nat) :
    ∀ s ∈ (saValues n data).take (n - 1), 0 ∉ s := by
  intro s hs
  rw [saValues_eq_append, List.take_append_eq_append_take] at hs
  rcases List.mem_append.mp hs with h | h
  · exact splitN_take_nul_free n data s h
  · have := List.take_subset _ _ h
    rw [List.eq_of_mem_replicate this]
    simp

lemma saValues_drop (n : Nat) (data : List Nat) :
    (saValues n data).drop (splitN data n).length =
      List.replicate (n - (splitN data n).length) [] := by
  rw [saValues_eq_append, List.drop_left]

/-! ### Lemmas about hex encoding and 32-bit reinterpretation -/

lemma hexEncode_length (l : List Nat) : (hexEncode l).length = 2 * l.length := by
  induction l with
  | nil => rfl
  | cons b rest ih =>
    unfold hexEncode at ih ⊢
    simp only [List.foldr_cons, List.length_cons]
    omega

lemma hexDigit_cases {d : Nat} (h : d ≤ 15) :
    (48 ≤ hexDigit d ∧ hexDigit d ≤ 57) ∨ (97 ≤ hexDigit d ∧ hexDigit d ≤ 102) := by
  unfold hexDigit
  split_ifs with h10
  · left; omega
  · right; omega

lemma hexEncode_mem (l : List Nat) :
    ∀ c ∈ hexEncode l, (48 ≤ c ∧ c ≤ 57) ∨ (97 ≤ c ∧ c ≤ 102) := by
  induction l with
  | nil => intro c hc; simp [hexEncode] at hc
  | cons b rest ih =>
    intro c hc
    unfold hexEncode at hc
    simp only [List.foldr_cons] at hc
    rcases List.mem_cons.mp hc with rfl | hc
    · exact hexDigit_cases (by omega)
    · rcases List.mem_cons.mp hc with rfl | hc
      · exact hexDigit_cases (by omega)
      · exact ih c hc

lemma toInt32_range (n : Nat) :
    -(2 ^ 31) ≤ toInt32 n ∧ toInt32 n < 2 ^ 31 := by
  unfold toInt32
  have h := Nat.mod_lt n (show 0 < 2 ^ 32 by norm_num)
  split_ifs with hlt
  · constructor <;> push_cast <;> omega
  · constructor <;> push_cast <;> omega

/-! ### Claim theorems -/

/-- C1: the claim says the CHAR/INT8 decoder reads exactly one byte and
yields the entry data byte at index 0, a single-byte entry decoding
successfully. The code instead issues two one-byte `binary.Read` calls:
a single-byte CHAR or INT8 entry fails with a read error, and a two-byte
entry yields the byte at index 1. This theorem evaluates the code at the
failing inputs, witnessing the divergence the spec itself flags as a bug. -/
theorem C1_doubleRead_bug :
    entryValue ⟨⟨1030, 1, 0, 1⟩, [42]⟩ = .err (.readFail "failed to read binary byte")
    ∧ entryValue ⟨⟨1030, 2, 0, 1⟩, [42]⟩ = .err (.readFail "failed to read binary byte")
    ∧ entryValue ⟨⟨1030, 1, 0, 2⟩, [42, 7]⟩ = .ok (.byteV 7) := by
  refine ⟨rfl, rfl, rfl⟩

/-- C2 counterexample: a STRING_ARRAY entry with count 2 and data
`"a\x00b\x00"` decodes to the strings `"a"` and `"b\x00"`; the second
decoded string retains a NUL byte, contradicting the claim that no
decoded string retains NUL bytes. -/
theorem C2_counterexample :
    entryValue ⟨⟨1047, 8, 0, 2⟩, [97, 0, 98, 0]⟩ = .ok (.strArr [[97], [98, 0]])
    ∧ (0 : Nat) ∈ [98, 0] := by
  refine ⟨rfl, by decide⟩

/-- C2 amended: a STRING_ARRAY or I18NSTRING entry with declared count n
decodes without error to exactly n strings: the chunks of a NUL split
limited to n pieces (the n-th chunk is the unsplit remainder and may
retain NUL bytes; all earlier chunks are NUL-free), padded with empty
strings up to length n when the data runs out of NULs; n = 0 yields the
empty list, not an error. -/
theorem C2_amended (tag off : Int) (cnt ty : Nat) (data : List Nat)
    (hty : ty = 8 ∨ ty = 9) :
    entryValue ⟨⟨tag, ty, off, cnt⟩, data⟩ = .ok (.strArr (saValues cnt data))
    ∧ (saValues cnt data).length = cnt
    ∧ saValues cnt data =
        splitN data cnt ++ List.replicate (cnt - (splitN data cnt).length) []
    ∧ (∀ s ∈ (saValues cnt data).take (cnt - 1), 0 ∉ s)
    ∧ (saValues cnt data).drop (splitN data cnt).length =
        List.replicate (cnt - (splitN data cnt).length) []
    ∧ (cnt = 0 → saValues cnt data = []) := by
  refine ⟨?_, saValues_length cnt data, saValues_eq_append cnt data,
    saValues_take_nul_free cnt data, saValues_drop cnt data, ?_⟩
  · rcases hty with rfl | rfl
    · unfold entryValue; norm_num
    · unfold entryValue; norm_num
  · intro h; subst h; rfl

/-- C2 witness: the amended claim evaluated on a STRING_ARRAY entry with
count 3 whose data holds only one NUL: one real chunk, one remainder,
one padding empty string. -/
theorem C2_witness :
    entryValue ⟨⟨1047, 8, 0, 3⟩, [97, 0]⟩ = .ok (.strArr [[97], [], []])
    ∧ (saValues 3 [97, 0]).length = 3 := by
  have h := C2_amended 1047 0 3 8 [97, 0] (Or.inl rfl)
  exact ⟨by rw [h.1]; decide, h.2.1⟩

/-- C3 counterexample: a BIN entry whose tag 61 lies in
`[HEADER_IMAGE, HEADER_REGIONS)` makes `entryValue` return the
`ErrNotSupport` error, not an opaque structural value as claimed. -/
theorem C3_counterexample :
    entryValue ⟨⟨61, 7, 0, 16⟩, List.replicate 16 0⟩ = .err .notSupport
    ∧ (entryValue ⟨⟨61, 7, 0, 16⟩, List.replicate 16 0⟩).isOk = false := by
  refine ⟨rfl, rfl⟩

/-- C3 amended: for a BIN entry with count within the data length, a tag
outside `[HEADER_IMAGE(61), HEADER_REGIONS(64))` yields the lowercase hex
encoding of the first count bytes (2·count characters drawn from the
lowercase hex alphabet); a tag inside that interval yields the
`ErrNotSupport` error rather than any value. -/
lemma entryValue_bin (tag off : Int) (cnt : Nat) (data : List Nat) :
    entryValue ⟨⟨tag, 7, off, cnt⟩, data⟩ =
      if 61 ≤ tag ∧ tag < 64 then .err .notSupport
      else if cnt ≤ data.length then .ok (.str (hexEncode (data.take cnt)))
      else .panicked := by
  unfold entryValue
  norm_num

theorem C3_amended (tag off : Int) (cnt : Nat) (data : List Nat)
    (hcnt : cnt ≤ data.length) :
    (¬(61 ≤ tag ∧ tag < 64) →
      entryValue ⟨⟨tag, 7, off, cnt⟩, data⟩ = .ok (.str (hexEncode (data.take cnt))))
    ∧ ((61 ≤ tag ∧ tag < 64) →
      entryValue ⟨⟨tag, 7, off, cnt⟩, data⟩ = .err .notSupport)
    ∧ (hexEncode (data.take cnt)).length = 2 * cnt
    ∧ (∀ c ∈ hexEncode (data.take cnt), (48 ≤ c ∧ c ≤ 57) ∨ (97 ≤ c ∧ c ≤ 102)) := by
  refine ⟨?_, ?_, ?_, hexEncode_mem _⟩
  · intro hreg
    rw [entryValue_bin, if_neg hreg, if_pos hcnt]
  · intro hreg
    rw [entryValue_bin, if_pos hreg]
  · rw [hexEncode_length, List.length_take, Nat.min_eq_left hcnt]

/-- C3 witness: the amended claim evaluated at a non-region BIN entry
(hex of the two bytes 00 ff) and at the region tag 61. -/
theorem C3_witness :
    entryValue ⟨⟨1012, 7, 0, 2⟩, [0, 255]⟩ = .ok (.str [48, 48, 102, 102])
    ∧ entryValue ⟨⟨61, 7, 0, 2⟩, [0, 255]⟩ = .err .notSupport := by
  have h1 := C3_amended 1012 0 2 [0, 255] (by norm_num)
  have h2 := C3_amended 61 0 2 [0, 255] (by norm_num)
  refine ⟨?_, h2.2.1 (by norm_num)⟩
  rw [h1.1 (by norm_num)]
  decide

/-- C4 counterexample: with tag 1004 requested, the first entry makes
`entryValue` fail (CHAR entry with one data byte), so it is skipped; but
the projection does not succeed, because a later NAME entry carries the
wrong declared type. This refutes the claim that after such a decode
failure "the projection still succeeds" for every entry list. -/
theorem C4_counterexample :
    entryValue ⟨⟨1004, 1, 0, 1⟩, [7]⟩ = .err (.readFail "failed to read binary byte")
    ∧ getPackageWithTags [⟨⟨1004, 1, 0, 1⟩, [7]⟩, ⟨⟨1000, 4, 0, 1⟩, [0]⟩]
        (fun t => t == 1004) = .err (.invalid "invalid tag name") := by
  refine ⟨rfl, by decide⟩

/-- C4 amended: (1) an entryValue error return on a requested non-NEVRA
tag leaves the projection state unchanged — that entry alone never fails
the projection; (2) if any entry carries one of the nine NEVRA tags with
a declared type different from the required one, the whole projection
does not succeed (it returns an error, or panics if another requested
BIN entry trips the out-of-bounds slice first). -/
theorem C4_amended :
    (∀ (tagMask : TAG_ID → Bool) (px : PackageInfoEx) (e : indexEntry) (g : GoErr),
      e.info.tag ∉ nevraTags → tagMask e.info.tag = true →
      entryValue e = .err g → pwtStep tagMask px e = .ok px)
    ∧ (∀ (entries : List indexEntry) (tagMask : TAG_ID → Bool) (e : indexEntry),
      e ∈ entries → e.info.tag ∈ nevraTags →
      e.info.type ≠ requiredType e.info.tag →
      (getPackageWithTags entries tagMask).isOk = false) := by
  constructor
  · intro tagMask px e g h hm hv
    exact pwtStep_skip h hm hv
  · intro entries tagMask e hmem htag hty
    exact pwtRun_not_ok_of_bad entries htag hty {} tagMask hmem

/-- C4 witness: both amended parts at concrete inputs: the failing CHAR
entry is skipped leaving the state unchanged, and a NAME entry declared
as BIN makes the projection fail. -/
theorem C4_witness :
    pwtStep (fun t => t == 1004) {} ⟨⟨1004, 1, 0, 1⟩, [7]⟩ = .ok {}
    ∧ (getPackageWithTags [⟨⟨1000, 7, 0, 1⟩, [0]⟩] (fun _ => false)).isOk = false := by
  constructor
  · exact C4_amended.1 _ {} _ (.readFail "failed to read binary byte")
      (by decide) (by decide) (by rfl)
  · exact C4_amended.2 _ _ ⟨⟨1000, 7, 0, 1⟩, [0]⟩ (by decide) (by decide) (by decide)

/-- C5 counterexample: on a single requested BIN entry whose count
exceeds its data length, `getPackageWithTags` panics (does not succeed)
while `getNEVRA` succeeds on the same entry list, refuting the claimed
equivalence for every entry list and requested tag set. -/
theorem C5_counterexample :
    (getPackageWithTags [⟨⟨4999, 7, 0, 3⟩, []⟩] (fun t => t == 4999)).isOk = false
    ∧ (getNEVRA [⟨⟨4999, 7, 0, 3⟩, []⟩]).isOk = true
    ∧ getPackageWithTags [⟨⟨4999, 7, 0, 3⟩, []⟩] (fun t => t == 4999) = .panicked := by
  refine ⟨by decide, rfl, by decide⟩

/-- C5 amended: whenever every requested BIN entry outside the
header-region tag interval has count within its data length (so the
extended projection cannot panic), `getPackageWithTags` succeeds exactly
when `getNEVRA` succeeds, errors agree, and on success the embedded
`PackageInfo` of the extended result equals the `getNEVRA` result. -/
theorem C5_amended (entries : List indexEntry) (tagMask : TAG_ID → Bool)
    (hb : BinBound tagMask entries) :
    GoResult.map (fun px => px.pkgInfo) (getPackageWithTags entries tagMask) =
      getNEVRA entries := by
  unfold getPackageWithTags getNEVRA
  exact pwtRun_map entries {} tagMask hb

/-- C5 witness: the amended equivalence evaluated on a one-entry list
carrying NAME, with an extended tag requested. -/
theorem C5_witness :
    GoResult.map (fun px => px.pkgInfo)
        (getPackageWithTags [⟨⟨1000, 6, 0, 1⟩, [98, 97, 115, 104, 0]⟩]
          (fun t => t == 1004)) =
      getNEVRA [⟨⟨1000, 6, 0, 1⟩, [98, 97, 115, 104, 0]⟩] :=
  C5_amended _ _ (by decide)

/-- C6: in NEVRA projection the SOURCERPM, LICENSE and VENDOR string
entries store the entry data with trailing NULs trimmed and the literal
`"(none)"` mapped to the empty string; every other value, the empty
string included, is stored verbatim, and the normalization is
idempotent. -/
theorem C6_normalization :
    (∀ (p : PackageInfo) (off : Int) (cnt : Nat) (data : List Nat),
      nevraStep p ⟨⟨1044, 6, off, cnt⟩, data⟩ =
        .ok (setSourceRpm p (normNone (trimNulRight data))))
    ∧ (∀ (p : PackageInfo) (off : Int) (cnt : Nat) (data : List Nat),
      nevraStep p ⟨⟨1014, 6, off, cnt⟩, data⟩ =
        .ok (setLicense p (normNone (trimNulRight data))))
    ∧ (∀ (p : PackageInfo) (off : Int) (cnt : Nat) (data : List Nat),
      nevraStep p ⟨⟨1011, 6, off, cnt⟩, data⟩ =
        .ok (setVendor p (normNone (trimNulRight data))))
    ∧ normNone noneBytes = []
    ∧ (∀ s : List Nat, s ≠ noneBytes → normNone s = s)
    ∧ (∀ s : List Nat, normNone (normNone s) = normNone s) := by
  refine ⟨?_, ?_, ?_, rfl, ?_, ?_⟩
  · intro p off cnt data
    unfold nevraStep sourceRpmCase
    norm_num
  · intro p off cnt data
    unfold nevraStep licenseCase
    norm_num
  · intro p off cnt data
    unfold nevraStep vendorCase
    norm_num
  · intro s hs
    exact if_neg hs
  · intro s
    by_cases h : s = noneBytes
    · rw [h]; rfl
    · have hs : normNone s = s := if_neg h
      rw [hs]; exact hs

/-- C6 witness: a SOURCERPM entry holding `"(none)\x00"` is stored as the
empty string, and a value other than the sentinel is kept verbatim. -/
theorem C6_witness :
    nevraStep {} ⟨⟨1044, 6, 0, 1⟩, [40, 110, 111, 110, 101, 41, 0]⟩ =
      .ok (setSourceRpm {} [])
    ∧ normNone [103, 112, 108] = [103, 112, 108] := by
  constructor
  · rw [C6_normalization.1 {} 0 1 [40, 110, 111, 110, 101, 41, 0]]
    decide
  · exact C6_normalization.2.2.2.2.1 [103, 112, 108] (by decide)

/-- C7: an entry carrying tag EPOCH (1003) or SIZE (1009) with declared
type INT32 and at least four data bytes is decoded as the big-endian
signed 32-bit integer formed from the first four data bytes, for every
declared count (count greater than 1 included); the decoded value lies
in the signed 32-bit range. -/
theorem C7_int32_decode (p : PackageInfo) (off : Int) (cnt : Nat)
    (data : List Nat) (h4 : 4 ≤ data.length) :
    nevraStep p ⟨⟨1003, 4, off, cnt⟩, data⟩ =
      .ok (setEpoch p (toInt32 (beBytes (data.take 4))))
    ∧ nevraStep p ⟨⟨1009, 4, off, cnt⟩, data⟩ =
      .ok (setSize p (toInt32 (beBytes (data.take 4))))
    ∧ -(2 ^ 31) ≤ toInt32 (beBytes (data.take 4))
    ∧ toInt32 (beBytes (data.take 4)) < 2 ^ 31 := by
  have hr := toInt32_range (beBytes (data.take 4))
  refine ⟨?_, ?_, hr.1, hr.2⟩
  · unfold nevraStep epochCase
    norm_num
    intro hlt
    exact absurd hlt (by omega)
  · unfold nevraStep sizeCase
    norm_num
    intro hlt
    exact absurd hlt (by omega)

/-- C7 witness: an EPOCH entry with count 2 and eight data bytes
ff ff ff ff 00 00 00 01 decodes the first four bytes as the signed
value -1. -/
theorem C7_witness :
    nevraStep {} ⟨⟨1003, 4, 0, 2⟩, [255, 255, 255, 255, 0, 0, 0, 1]⟩ =
      .ok (setEpoch {} (-1)) := by
  have h := C7_int32_decode {} 0 2 [255, 255, 255, 255, 0, 0, 0, 1] (by norm_num)
  rw [h.1]
  decide

/-- C8: `getNEVRA` is total on every index-entry list: it never panics,
always completing with either a `PackageInfo` or an error. -/
theorem C8_total (entries : List indexEntry) :
    (getNEVRA entries).completed = true :=
  nevraRun_completed entries {}

/-- C9: an entry whose tag is not one of the nine recognized NEVRA tags
does not affect basic projection: inserting it at any position of the
entry list leaves the `getNEVRA` result unchanged. -/
theorem C9_ignore (l1 l2 : List indexEntry) (e : indexEntry)
    (h : e.info.tag ∉ nevraTags) :
    getNEVRA (l1 ++ e :: l2) = getNEVRA (l1 ++ l2) :=
  nevraRun_ignore h l2 l1 {}

/-- C9 witness: inserting a SUMMARY (1004) entry after a NAME entry does
not change the projection. -/
theorem C9_witness :
    getNEVRA ([⟨⟨1000, 6, 0, 1⟩, [97, 0]⟩] ++ ⟨⟨1004, 6, 0, 1⟩, [98, 0]⟩ :: []) =
      getNEVRA ([⟨⟨1000, 6, 0, 1⟩, [97, 0]⟩] ++ []) :=
  C9_ignore [⟨⟨1000, 6, 0, 1⟩, [97, 0]⟩] [] ⟨⟨1004, 6, 0, 1⟩, [98, 0]⟩ (by decide)

/-- C10: `getPackageWithTags` never panics when every requested BIN entry
with a tag outside `[HEADER_IMAGE, HEADER_REGIONS)` has count bounded by
its data length; and the bound is necessary at the public interface: a
requested BIN entry with count 5 and empty data makes it panic via the
`Data[:count]` slice. -/
theorem C10_bin_bound :
    (∀ (entries : List indexEntry) (tagMask : TAG_ID → Bool),
      BinBound tagMask entries →
      (getPackageWithTags entries tagMask).completed = true)
    ∧ getPackageWithTags [⟨⟨5000, 7, 0, 5⟩, []⟩] (fun t => t == 5000) = .panicked := by
  constructor
  · intro entries tagMask hb
    exact pwtRun_completed entries {} tagMask hb
  · decide

/-- C10 witness: the totality half evaluated on a requested BIN entry
whose count 2 is within its two data bytes. -/
theorem C10_witness :
    (getPackageWithTags [⟨⟨5000, 7, 0, 2⟩, [222, 173]⟩]
      (fun t => t == 5000)).completed = true :=
  C10_bin_bound.1 _ _ (by decide)

end RpmDb
